import Mathlib

/-!
Verification development for the hpm-probe firmware.

Shallow embedding of the protocol-stack core of the firmware:
the DMA-fed UART ring buffer (`hpm-probe-bsp/src/uart.rs`), the SPI
prescaler selection and SWD data phases (`hpm-probe-bsp/src/spi.rs`),
the USB transport dispatcher (`firmware/src/usb/mod.rs`), the CMSIS-DAP v2
function (`firmware/src/usb/dap_v2.rs`), the DFU runtime function
(`firmware/src/usb/dfu.rs`) and the trace-pump section of the command
router (`firmware/src/app.rs`).

Machine integers are embedded as `Nat` with explicit `% 2 ^ w` masking where
the source relies on fixed-width behaviour; external collaborators (USB bus,
DMA hardware, endpoint writes) are passed in as explicit inputs; fallible
calls are `Except`, and Rust `expect` (panic on error) is `Option` with
`none` for the panic.
-/

namespace HpmProbe

/-! ## Ring-buffer UART capture (`hpm-probe-bsp/src/uart.rs`) -/

namespace Uart

/-- Embedding of `Uart::bytes_available` (uart.rs lines 104-111).
`bufLen` is `self.buffer.len()` (256 in the source), `last_idx` the software
read cursor and `ndtr` the DMA remaining transfer count `uart9_ndtr()`. -/
def bytes_available (bufLen last_idx ndtr : ℕ) : ℕ :=
  let dma_idx := bufLen - ndtr
  if last_idx ≤ dma_idx then
    dma_idx - last_idx
  else
    (bufLen - last_idx) + dma_idx

/-- Embedding of `Uart::read` (uart.rs lines 120-171). The internal 256-byte
buffer is a list of byte values, `ndtr` the DMA remaining transfer count and
`rxLen` the destination slice length. Returns the bytes the source copies
into `rx[..n]` (in order) together with the updated `last_idx`; the returned
count of the source is the length of the first component. The three match
arms mirror `Ordering::Equal`, `Ordering::Less` (wraparound) and
`Ordering::Greater`; the inner triple `nn` is `(n1, n2, new_last_idx)` after
the destination-overflow adjustments. -/
def read (buffer : List ℕ) (last_idx ndtr rxLen : ℕ) : List ℕ × ℕ :=
  let dma_idx := buffer.length - ndtr
  if dma_idx = last_idx then
    ([], last_idx)
  else if dma_idx < last_idx then
    let n1 := buffer.length - last_idx
    let n2 := dma_idx
    let nn :=
      if n1 > rxLen then (rxLen, 0, last_idx + rxLen)
      else if n1 + n2 > rxLen then (n1, rxLen - n1, rxLen - n1)
      else (n1, n2, dma_idx)
    ((buffer.drop last_idx).take nn.1 ++ buffer.take nn.2.1, nn.2.2)
  else
    let n0 := dma_idx - last_idx
    let n := if n0 > rxLen then rxLen else n0
    ((buffer.drop last_idx).take n, last_idx + n)

end Uart

/-! ## SPI / SWD transaction layer (`hpm-probe-bsp/src/spi.rs`) -/

/-- Embedding of the `SPIPrescaler` enum (spi.rs lines 19-30). -/
inductive SPIPrescaler
  | Div2
  | Div4
  | Div8
  | Div16
  | Div32
  | Div64
  | Div128
  | Div256
deriving DecidableEq

namespace Spi

/-- Embedding of `Spi::calculate_prescaler` (spi.rs lines 121-152).
`base_clock` is the stored `AtomicU32` base clock (0 until
`set_base_clock` is called). The early returns of the source are the
else-if chain. -/
def calculate_prescaler (base_clock max_frequency : ℕ) : Option SPIPrescaler :=
  if base_clock = 0 then none
  else if base_clock / 4 ≤ max_frequency then some SPIPrescaler.Div2
  else if base_clock / 8 ≤ max_frequency then some SPIPrescaler.Div4
  else if base_clock / 16 ≤ max_frequency then some SPIPrescaler.Div8
  else if base_clock / 32 ≤ max_frequency then some SPIPrescaler.Div16
  else if base_clock / 64 ≤ max_frequency then some SPIPrescaler.Div32
  else if base_clock / 128 ≤ max_frequency then some SPIPrescaler.Div64
  else if base_clock / 256 ≤ max_frequency then some SPIPrescaler.Div128
  else if base_clock / 512 ≤ max_frequency then some SPIPrescaler.Div256
  else none

/-- Modelled from the spec: the documented divider ladder
/4, /8, /16, /32, /64, /128, /256, /512 relative to the base clock,
smallest divider first. These are the divisors appearing in the
comparisons of `calculate_prescaler`. -/
def ladder : List ℕ := [4, 8, 16, 32, 64, 128, 256, 512]

/-- Modelled from the spec: maps a check divisor of the ladder to the
`SPIPrescaler` variant `calculate_prescaler` returns when that divisor is
the first whose resulting frequency does not exceed the requested maximum.
The variant name is one ladder step below the check divisor
(divisor 4 selects `Div2`, ..., divisor 512 selects `Div256`), mirroring
the pairing in the source. -/
def prescalerOfDivisor : ℕ → Option SPIPrescaler
  | 4 => some SPIPrescaler.Div2
  | 8 => some SPIPrescaler.Div4
  | 16 => some SPIPrescaler.Div8
  | 32 => some SPIPrescaler.Div16
  | 64 => some SPIPrescaler.Div32
  | 128 => some SPIPrescaler.Div64
  | 256 => some SPIPrescaler.Div128
  | 512 => some SPIPrescaler.Div256
  | _ => none

/-- Observable actions of the SPI driver primitives: register writes that
set the frame length and transfer counts, the framing command write, data
register reads/writes, the busy-wait, and the direct (non-shift-register)
clock manipulation used during the SWD RDATA parity hand-off. -/
inductive SpiAct
  | setDatalen (v : ℕ)
  | setTranscnt (w r : ℕ)
  | cmd (v : ℕ)
  | writeDr (v : ℕ)
  | readDr (v : ℕ)
  | waitRxne
  | clkDirect
  | clkLow
  | clkHigh
  | delayTicks (t : ℕ)
  | clkSpi
deriving DecidableEq

/-- Value written to the data register by an action, if any. -/
def writeValue : SpiAct → Option ℕ
  | SpiAct.writeDr v => some v
  | _ => none

/-- Value read from the data register by an action, if any. -/
def readValue : SpiAct → Option ℕ
  | SpiAct.readDr v => some v
  | _ => none

/-- Extract the values written to the data register (the transmitted words)
from an action trace, in order. -/
def writtenWords (t : List SpiAct) : List ℕ :=
  t.filterMap writeValue

/-- Extract the values read from the data register (the received words)
from an action trace, in order. -/
def readWords (t : List SpiAct) : List ℕ :=
  t.filterMap readValue

/-- Embedding of `Spi::swd_wdata_phase` (spi.rs lines 215-229). `data` is the
32-bit data word (`u32`, hence the `% 2 ^ 32` view), `parity` the parity
byte, and `rx` the stream of raw values successive `read_dr_u8` calls
observe (masked to a byte as in the source). The Rust function returns `()`;
the second component is the trace of driver actions in program order. -/
def swd_wdata_phase (data parity : ℕ) (rx : ℕ → ℕ) : Unit × List SpiAct :=
  let d := data % 2 ^ 32
  ((),
    [SpiAct.setDatalen (8 - 1), SpiAct.setTranscnt 4 4, SpiAct.cmd 0xff,
     SpiAct.writeDr ((d >>> (0 * 8)) &&& 0xFF),
     SpiAct.writeDr ((d >>> (1 * 8)) &&& 0xFF),
     SpiAct.writeDr ((d >>> (2 * 8)) &&& 0xFF),
     SpiAct.writeDr ((d >>> (3 * 8)) &&& 0xFF),
     SpiAct.writeDr (parity &&& 1),
     SpiAct.readDr (rx 0 % 256), SpiAct.readDr (rx 1 % 256),
     SpiAct.readDr (rx 2 % 256), SpiAct.readDr (rx 3 % 256),
     SpiAct.readDr (rx 4 % 256)])

/-- Embedding of `Spi::swd_rdata_phase` (spi.rs lines 260-298). `rx` is the
stream of raw values successive `read_dr_u8` calls observe (masked to a
byte). The first component is the returned `(data, parity)` pair; the
second is the trace of driver actions in program order: the first three
received words are read before the manual two-pulse clock hand-off
(`clkDirect` ... `clkSpi`), the fourth buffered word after it. -/
def swd_rdata_phase (rx : ℕ → ℕ) : (ℕ × ℕ) × List SpiAct :=
  let r0 := rx 0 % 256
  let r1 := rx 1 % 256
  let r2 := rx 2 % 256
  let r3 := rx 3 % 256
  let data := r0 ||| (r1 <<< 8) ||| (r2 <<< 16) ||| (r3 <<< 24)
  ((data, 0),
    [SpiAct.setDatalen (8 - 1), SpiAct.setTranscnt (4 - 1) (4 - 1), SpiAct.cmd 0xff,
     SpiAct.writeDr 0xff, SpiAct.writeDr 0xff, SpiAct.writeDr 0xff, SpiAct.writeDr 0xff,
     SpiAct.readDr r0, SpiAct.readDr r1, SpiAct.readDr r2,
     SpiAct.waitRxne,
     SpiAct.clkDirect,
     SpiAct.clkLow, SpiAct.delayTicks 5, SpiAct.clkHigh, SpiAct.delayTicks 5,
     SpiAct.clkLow, SpiAct.delayTicks 5, SpiAct.clkHigh, SpiAct.delayTicks 5,
     SpiAct.clkSpi,
     SpiAct.readDr r3])

end Spi

/-! ## USB transport dispatcher and CMSIS-DAP v2 function
(`firmware/src/usb/mod.rs`, `firmware/src/usb/dap_v2.rs`) -/

/-- Embedding of `usb_device::device::UsbDeviceState`. -/
inductive DeviceState
  | Default
  | Addressed
  | Configured
  | Suspend
deriving DecidableEq

/-- Embedding of the `Request` enum (app.rs lines 7-12). Buffers are byte
lists plus the valid length, as in the source pairs. -/
inductive Request
  | Suspend
  | DAP1Command (buf : List ℕ) (n : ℕ)
  | DAP2Command (buf : List ℕ) (n : ℕ)
  | VCPPacket (buf : List ℕ) (n : ℕ)
deriving DecidableEq

/-- Embedding of the `usb_device::UsbError` values relevant here. -/
inductive UsbError
  | wouldBlock
  | bufferOverflow
  | otherErr
deriving DecidableEq

namespace CmsisDapV2

/-- Embedding of `CmsisDapV2::process` (dap_v2.rs lines 27-33). `readResult`
models the external `read_ep.read(&mut buf)` outcome: on success the
endpoint delivers the buffer contents and the returned size. -/
def process (readResult : Except UsbError (List ℕ × ℕ)) : Option Request :=
  match readResult with
  | Except.ok (buf, size) => if size > 0 then some (Request.DAP2Command buf size) else none
  | Except.error _ => none

/-- Embedding of `CmsisDapV2::write_packet` (dap_v2.rs lines 35-40).
`maxPacketSize` is `write_ep.max_packet_size()` and `epWrite` the external
endpoint write outcome. The second component records the bytes handed to
the external endpoint write; `none` means the write was never invoked. -/
def write_packet (maxPacketSize : ℕ) (data : List ℕ) (epWrite : Except UsbError ℕ) :
    Except UsbError Unit × Option (List ℕ) :=
  if data.length > maxPacketSize then
    (Except.error UsbError.bufferOverflow, none)
  else
    (epWrite.map fun _ => (), some data)

/-- Embedding of `CmsisDapV2::trace_write` (dap_v2.rs lines 46-53). The first
component is the result together with the updated `trace_busy` flag (set
only when the endpoint write succeeded, by the `?` early return); the
second records the bytes handed to the external endpoint write, `none`
when the write was never invoked. -/
def trace_write (maxPacketSize : ℕ) (trace_busy : Bool) (data : List ℕ)
    (epWrite : Except UsbError ℕ) : (Except UsbError Unit × Bool) × Option (List ℕ) :=
  if data.length > maxPacketSize then
    ((Except.error UsbError.bufferOverflow, trace_busy), none)
  else
    match epWrite with
    | Except.ok _ => ((Except.ok (), true), some data)
    | Except.error e => ((Except.error e, trace_busy), some data)

/-- Embedding of `CmsisDapV2::endpoint_in_complete` (dap_v2.rs lines 79-83):
effect on the `trace_busy` flag, `addrIsTraceEp` telling whether the
completed endpoint address equals `trace_ep.address()`. -/
def endpoint_in_complete (trace_busy : Bool) (addrIsTraceEp : Bool) : Bool :=
  if addrIsTraceEp then false else trace_busy

/-- Embedding of `CmsisDapV2::reset` (dap_v2.rs lines 75-77): effect on the
`trace_busy` flag. -/
def reset (_trace_busy : Bool) : Bool := false

end CmsisDapV2

/-- Inputs one call of `USB::interrupt` obtains from the external USB stack:
the `device.poll(...)` result, the device state reported by
`device.state()` after the poll, the `dap_v2` command endpoint read
outcome and the serial read outcome. -/
structure PollEnv where
  pollResult : Bool
  newState : DeviceState
  readEp : Except UsbError (List ℕ × ℕ)
  serialRead : Except UsbError (List ℕ × ℕ)

/-- Result of one embedded `USB::interrupt` call: the stored device state
after the call, the returned request, and whether the call reached the
debug-command (`dap_v2.process`) and serial processing steps. -/
structure InterruptResult where
  device_state : DeviceState
  request : Option Request
  dap2Processed : Bool
  serialPolled : Bool
deriving DecidableEq

namespace USB

/-- Embedding of `USB::interrupt` (mod.rs lines 137-178) on an initialized
device. `device_state` is the stored `usb.device_state`; `env` the external
inputs of this call; `vcp_idle` the `vcp_idle` argument. On a state change
to `Configured` the source calls `bus().configure()` and then continues to
command processing, which the second branch mirrors. -/
def interrupt (device_state : DeviceState) (env : PollEnv) (vcp_idle : Bool) :
    InterruptResult :=
  if env.pollResult then
    let old_state := device_state
    let new_state := env.newState
    if old_state ≠ new_state ∧ new_state ≠ DeviceState.Configured then
      { device_state := new_state, request := some Request.Suspend,
        dap2Processed := false, serialPolled := false }
    else
      match CmsisDapV2.process env.readEp with
      | some r =>
          { device_state := new_state, request := some r,
            dap2Processed := true, serialPolled := false }
      | none =>
          if vcp_idle then
            match env.serialRead with
            | Except.ok (buf, x) =>
                { device_state := new_state, request := some (Request.VCPPacket buf x),
                  dap2Processed := true, serialPolled := true }
            | Except.error _ =>
                { device_state := new_state, request := none,
                  dap2Processed := true, serialPolled := true }
          else
            { device_state := new_state, request := none,
              dap2Processed := true, serialPolled := false }
  else
    { device_state := device_state, request := none,
      dap2Processed := false, serialPolled := false }

/-- Embedding of `USB::dap2_reply` (mod.rs lines 189-194): forwards to
`write_packet` and panics (`expect`) on any error; `none` is the panic. -/
def dap2_reply (maxPacketSize : ℕ) (data : List ℕ) (epWrite : Except UsbError ℕ) :
    Option Unit :=
  match (CmsisDapV2.write_packet maxPacketSize data epWrite).1 with
  | Except.ok u => some u
  | Except.error _ => none

/-- Embedding of `USB::dap2_stream_swo` (mod.rs lines 203-206): forwards to
`trace_write` and panics (`expect`) on any error; `none` is the panic, and
on success the updated `trace_busy` flag is returned. -/
def dap2_stream_swo (maxPacketSize : ℕ) (trace_busy : Bool) (data : List ℕ)
    (epWrite : Except UsbError ℕ) : Option (Unit × Bool) :=
  match (CmsisDapV2.trace_write maxPacketSize trace_busy data epWrite).1 with
  | (Except.ok u, b) => some (u, b)
  | (Except.error _, _) => none

end USB

/-- Events that can touch the trace-endpoint busy flag during execution:
the trace-pump section of one `App::poll` iteration (app.rs lines 106-114,
with the observed `is_swo_streaming` flag and the `read_swo` length),
a reply write or command processing (which never touch the flag), an
endpoint-in completion notification, and a device reset. -/
inductive TraceEv
  | pollTrace (streaming : Bool) (len : ℕ)
  | writeReply
  | processCmd
  | complete (addrIsTraceEp : Bool)
  | reset
deriving DecidableEq

/-- One step of the trace-endpoint busy-flag state machine. The first
component is the flag after the event; the second records whether this
step submitted a trace write (`dap2_stream_swo` reached). `pollTrace`
mirrors `if self.dap.is_swo_streaming() && !self.usb.dap2_swo_is_busy()`
followed by the `len > 0` guard; completion and reset reuse the embedded
`CmsisDapV2` handlers. -/
def traceStep (busy : Bool) (e : TraceEv) : Bool × Bool :=
  match e with
  | TraceEv.pollTrace streaming len =>
      if streaming && !busy then
        if 0 < len then (true, true) else (busy, false)
      else (busy, false)
  | TraceEv.writeReply => (busy, false)
  | TraceEv.processCmd => (busy, false)
  | TraceEv.complete a => (CmsisDapV2.endpoint_in_complete busy a, false)
  | TraceEv.reset => (CmsisDapV2.reset busy, false)

/-! ## DFU runtime function (`firmware/src/usb/dfu.rs`) -/

/-- Embedding of `usb_device::control::RequestType`. -/
inductive RequestType
  | standard
  | classType
  | vendor
  | reserved
deriving DecidableEq

/-- Embedding of `usb_device::control::Recipient`. -/
inductive Recipient
  | device
  | interface
  | endpoint
  | other
deriving DecidableEq

/-- Embedding of a control request header, with the fields `dfu.rs` reads. -/
structure ControlRequest where
  request_type : RequestType
  recipient : Recipient
  index : ℕ
  request : ℕ
deriving DecidableEq

/-- Action a control handler takes on the transfer: no call at all (the
handler returns without touching the transfer), accept with response data,
or reject (STALL). -/
inductive XferAction
  | noCall
  | acceptData (data : List ℕ)
  | reject
deriving DecidableEq

/-- Embedding of the `DfuRuntime` struct state (dfu.rs lines 16-19): its only
fields are the allocated interface number and string index; it has no other
state. -/
structure DfuRuntime where
  interface : ℕ
  name : ℕ
deriving DecidableEq

namespace DfuRuntime

/-- Request code `DFU_DETACH` (dfu.rs line 7). -/
def DFU_DETACH : ℕ := 0

/-- Request code `DFU_GETSTATUS` (dfu.rs line 10). -/
def DFU_GETSTATUS : ℕ := 3

/-- Embedding of `DfuRuntime::control_in` (dfu.rs lines 63-80): returns the
(unchanged) handler state and the action taken on the transfer. -/
def control_in (dfu : DfuRuntime) (req : ControlRequest) : DfuRuntime × XferAction :=
  if ¬(req.request_type = RequestType.classType ∧ req.recipient = Recipient.interface ∧
        req.index = dfu.interface) then
    (dfu, XferAction.noCall)
  else if req.request = DFU_GETSTATUS then
    (dfu, XferAction.acceptData (List.replicate 6 0))
  else
    (dfu, XferAction.reject)

/-- Embedding of `DfuRuntime::control_out` (dfu.rs lines 82-99): the
`DFU_DETACH` arm is an empty body (a no-op placeholder, no reject and no
state change); every other matching request is rejected. -/
def control_out (dfu : DfuRuntime) (req : ControlRequest) : DfuRuntime × XferAction :=
  if ¬(req.request_type = RequestType.classType ∧ req.recipient = Recipient.interface ∧
        req.index = dfu.interface) then
    (dfu, XferAction.noCall)
  else if req.request = DFU_DETACH then
    (dfu, XferAction.noCall)
  else
    (dfu, XferAction.reject)

end DfuRuntime

/-! ## Theorems -/

/-- Helper: a byte value shifted left by at most 24 bits stays below `2 ^ 32`. -/
theorem byte_shiftLeft_lt_two_pow_32 (x k : ℕ) (hk : k ≤ 24) :
    (x % 256) <<< k < 2 ^ 32 := by
  rw [Nat.shiftLeft_eq]
  have h1 : x % 256 ≤ 255 := by omega
  have h2 : (2 : ℕ) ^ k ≤ 2 ^ 24 := Nat.pow_le_pow_right (by norm_num) hk
  calc (x % 256) * 2 ^ k ≤ 255 * 2 ^ 24 := Nat.mul_le_mul h1 h2
    _ < 2 ^ 32 := by norm_num

set_option maxRecDepth 4000 in
/-- C2: for every base clock `b > 0` and requested maximum `m`,
`calculate_prescaler` returns exactly what the first ladder divisor
`d ∈ [4, 8, 16, 32, 64, 128, 256, 512]` with `b / d ≤ m` dictates (and
`none` when no such divisor exists); in particular, for a 48 MHz base clock
and a 2 MHz maximum the selected check divisor is 32 (yielding 1.5 MHz,
returned as the `Div16` variant), not 16 (which would yield 3 MHz). -/
theorem calculate_prescaler_ladder (b m : ℕ) (hb : 0 < b) :
    Spi.calculate_prescaler b m =
        (Spi.ladder.find? fun d => decide (b / d ≤ m)).bind Spi.prescalerOfDivisor ∧
    Spi.ladder.find? (fun d => decide (48000000 / d ≤ 2000000)) = some 32 ∧
    Spi.calculate_prescaler 48000000 2000000 = Spi.prescalerOfDivisor 32 ∧
    Spi.calculate_prescaler 48000000 2000000 = some SPIPrescaler.Div16 ∧
    48000000 / 32 = 1500000 ∧ ¬(48000000 / 16 ≤ 2000000) := by
  refine ⟨?_, by decide, by decide, by decide, by decide, by decide⟩
  have hb0 : ¬b = 0 := by omega
  by_cases h4 : b / 4 ≤ m
  · simp [Spi.calculate_prescaler, Spi.ladder, List.find?, Spi.prescalerOfDivisor, hb0, h4]
  · by_cases h8 : b / 8 ≤ m
    · simp [Spi.calculate_prescaler, Spi.ladder, List.find?, Spi.prescalerOfDivisor,
        hb0, h4, h8]
    · by_cases h16 : b / 16 ≤ m
      · simp [Spi.calculate_prescaler, Spi.ladder, List.find?, Spi.prescalerOfDivisor,
          hb0, h4, h8, h16]
      · by_cases h32 : b / 32 ≤ m
        · simp [Spi.calculate_prescaler, Spi.ladder, List.find?, Spi.prescalerOfDivisor,
            hb0, h4, h8, h16, h32]
        · by_cases h64 : b / 64 ≤ m
          · simp [Spi.calculate_prescaler, Spi.ladder, List.find?, Spi.prescalerOfDivisor,
              hb0, h4, h8, h16, h32, h64]
          · by_cases h128 : b / 128 ≤ m
            · simp [Spi.calculate_prescaler, Spi.ladder, List.find?, Spi.prescalerOfDivisor,
                hb0, h4, h8, h16, h32, h64, h128]
            · by_cases h256 : b / 256 ≤ m
              · simp [Spi.calculate_prescaler, Spi.ladder, List.find?, Spi.prescalerOfDivisor,
                  hb0, h4, h8, h16, h32, h64, h128, h256]
              · by_cases h512 : b / 512 ≤ m
                · simp [Spi.calculate_prescaler, Spi.ladder, List.find?,
                    Spi.prescalerOfDivisor, hb0, h4, h8, h16, h32, h64, h128, h256, h512]
                · simp [Spi.calculate_prescaler, Spi.ladder, List.find?,
                    Spi.prescalerOfDivisor, hb0, h4, h8, h16, h32, h64, h128, h256, h512]

/-- C2 witness: the general ladder characterization applied at the 48 MHz /
2 MHz scenario. -/
theorem calculate_prescaler_ladder_witness :
    Spi.calculate_prescaler 48000000 2000000 =
        (Spi.ladder.find? fun d => decide (48000000 / d ≤ 2000000)).bind
          Spi.prescalerOfDivisor ∧
    Spi.ladder.find? (fun d => decide (48000000 / d ≤ 2000000)) = some 32 ∧
    Spi.calculate_prescaler 48000000 2000000 = some SPIPrescaler.Div16 :=
  ⟨(calculate_prescaler_ladder 48000000 2000000 (by norm_num)).1,
   (calculate_prescaler_ladder 48000000 2000000 (by norm_num)).2.1,
   (calculate_prescaler_ladder 48000000 2000000 (by norm_num)).2.2.2.1⟩

/-- C10: `calculate_prescaler` returns `none` exactly when the stored base
clock is zero (never set) or even the largest ladder divisor leaves the
result above the requested maximum (`base_clock / 512 > max_frequency`);
being a total function on `ℕ`, it is defined (no panic, no division by
zero) for every input. -/
theorem calculate_prescaler_none_iff (b m : ℕ) :
    Spi.calculate_prescaler b m = none ↔ (b = 0 ∨ m < b / 512) := by
  by_cases hb : b = 0
  · simp [Spi.calculate_prescaler, hb]
  · simp only [Spi.calculate_prescaler]
    rw [if_neg hb]
    split_ifs with g1 g2 g3 g4 g5 g6 g7 g8
    all_goals try
      (refine ⟨fun h => by simp at h, fun h => ?_⟩
       exfalso
       rcases h with h | h
       · exact hb h
       · omega)
    exact iff_of_true rfl (Or.inr (by omega))

/-- C5: the SWD RDATA phase returns exactly the 32-bit value accumulated
low-byte-first from the four received bytes, the first three read before
the manual clock hand-off and the fourth (the word buffered during the
hand-off) after shift-register control of the clock is restored; the
action trace spells out this order, and the result fits in 32 bits. -/
theorem swd_rdata_phase_spec (rx : ℕ → ℕ) :
    (Spi.swd_rdata_phase rx).1.1 =
        (rx 0 % 256) ||| ((rx 1 % 256) <<< 8) ||| ((rx 2 % 256) <<< 16) |||
          ((rx 3 % 256) <<< 24) ∧
    (Spi.swd_rdata_phase rx).1.1 < 2 ^ 32 ∧
    (Spi.swd_rdata_phase rx).2 =
      [Spi.SpiAct.setDatalen 7, Spi.SpiAct.setTranscnt 3 3, Spi.SpiAct.cmd 0xff,
       Spi.SpiAct.writeDr 0xff, Spi.SpiAct.writeDr 0xff, Spi.SpiAct.writeDr 0xff,
       Spi.SpiAct.writeDr 0xff,
       Spi.SpiAct.readDr (rx 0 % 256), Spi.SpiAct.readDr (rx 1 % 256),
       Spi.SpiAct.readDr (rx 2 % 256),
       Spi.SpiAct.waitRxne,
       Spi.SpiAct.clkDirect,
       Spi.SpiAct.clkLow, Spi.SpiAct.delayTicks 5, Spi.SpiAct.clkHigh,
       Spi.SpiAct.delayTicks 5,
       Spi.SpiAct.clkLow, Spi.SpiAct.delayTicks 5, Spi.SpiAct.clkHigh,
       Spi.SpiAct.delayTicks 5,
       Spi.SpiAct.clkSpi,
       Spi.SpiAct.readDr (rx 3 % 256)] := by
  refine ⟨rfl, ?_, rfl⟩
  have h0 : rx 0 % 256 < 2 ^ 32 := by omega
  have h1 : (rx 1 % 256) <<< 8 < 2 ^ 32 := byte_shiftLeft_lt_two_pow_32 _ _ (by norm_num)
  have h2 : (rx 2 % 256) <<< 16 < 2 ^ 32 := byte_shiftLeft_lt_two_pow_32 _ _ (by norm_num)
  have h3 : (rx 3 % 256) <<< 24 < 2 ^ 32 := byte_shiftLeft_lt_two_pow_32 _ _ (by norm_num)
  exact Nat.or_lt_two_pow (Nat.or_lt_two_pow (Nat.or_lt_two_pow h0 h1) h2) h3

/-- C9: for every received byte stream, the parity component of the pair
returned by `swd_rdata_phase` is the constant 0 — the parity bit clocked
out during the manual hand-off is never sampled into the return value. -/
theorem swd_rdata_phase_parity_zero (rx : ℕ → ℕ) :
    (Spi.swd_rdata_phase rx).1.2 = 0 := rfl

/-- C6: the SWD WDATA phase transmits exactly the five 8-bit words
`d &&& 0xFF`, `(d >>> 8) &&& 0xFF`, `(d >>> 16) &&& 0xFF`,
`(d >>> 24) &&& 0xFF`, `parity &&& 1` in that order (for
`data = 0x12345678, parity = 1` the sequence `0x78, 0x56, 0x34, 0x12,
0x01`); the fifth word is below 2, so its upper seven bits — the seven
trailing idle bits — are zero; all five received words are read and the
function returns no data (`Unit`). -/
theorem swd_wdata_phase_spec (data parity : ℕ) (rx : ℕ → ℕ) :
    Spi.writtenWords (Spi.swd_wdata_phase data parity rx).2 =
        [(data % 2 ^ 32) &&& 0xFF, ((data % 2 ^ 32) >>> 8) &&& 0xFF,
         ((data % 2 ^ 32) >>> 16) &&& 0xFF, ((data % 2 ^ 32) >>> 24) &&& 0xFF,
         parity &&& 1] ∧
    parity &&& 1 < 2 ∧
    Spi.readWords (Spi.swd_wdata_phase data parity rx).2 =
        [rx 0 % 256, rx 1 % 256, rx 2 % 256, rx 3 % 256, rx 4 % 256] ∧
    (Spi.swd_wdata_phase data parity rx).1 = () ∧
    Spi.writtenWords (Spi.swd_wdata_phase 0x12345678 1 rx).2 =
        [0x78, 0x56, 0x34, 0x12, 0x01] := by
  refine ⟨?_, ?_, ?_, rfl, ?_⟩
  · simp [Spi.swd_wdata_phase, Spi.writtenWords, Spi.writeValue]
  · exact Nat.and_lt_two_pow parity (show 1 < 2 ^ 1 by norm_num)
  · simp [Spi.swd_wdata_phase, Spi.readWords, Spi.readValue]
  · simp only [Spi.swd_wdata_phase, Spi.writtenWords, Spi.writeValue, List.filterMap_cons,
      List.filterMap_nil]
    decide

set_option maxRecDepth 10000 in
/-- C1: for every ring-buffer state (capacity 256, software cursor
`last_idx < 256`, hardware write cursor `256 - ndtr` with the DMA remaining
count `ndtr` between 1 and 256) and every destination length, `Uart::read`
copies exactly `min(available, rxLen)` bytes — the prefix of the wrapped
span `buffer[last_idx ..] ++ buffer[.. write cursor]`, i.e. original write
order in at most two contiguous ranges — and advances `last_idx` by exactly
the number of bytes copied, modulo the capacity; in particular with
`last_idx = 250`, write cursor 4 (`ndtr = 252`) and destination length 10
it returns `buffer[250..256)` followed by `buffer[0..4)` and sets
`last_idx` to 4. -/
theorem uart_read_correct (buffer : List ℕ) (last_idx ndtr rxLen : ℕ)
    (hbuf : buffer.length = 256) (hlast : last_idx < 256)
    (hnd1 : 1 ≤ ndtr) (hnd2 : ndtr ≤ 256) :
    ((Uart.read buffer last_idx ndtr rxLen).1 =
        (buffer.drop last_idx ++ buffer.take (256 - ndtr)).take
          (min (Uart.bytes_available 256 last_idx ndtr) rxLen) ∧
      (Uart.read buffer last_idx ndtr rxLen).1.length =
        min (Uart.bytes_available 256 last_idx ndtr) rxLen ∧
      (Uart.read buffer last_idx ndtr rxLen).2 =
        (last_idx + min (Uart.bytes_available 256 last_idx ndtr) rxLen) % 256) ∧
    Uart.read (List.range 256) 250 252 10 =
      ([250, 251, 252, 253, 254, 255, 0, 1, 2, 3], 4) := by
  refine ⟨?_, by decide⟩
  have hdl : (buffer.drop last_idx).length = 256 - last_idx := by
    rw [List.length_drop, hbuf]
  have htl : (buffer.take (256 - ndtr)).length = 256 - ndtr := by
    rw [List.length_take, hbuf]
    omega
  by_cases h1 : 256 - ndtr = last_idx
  · -- no new data: the two cursors coincide
    have hread : Uart.read buffer last_idx ndtr rxLen = ([], last_idx) := by
      simp only [Uart.read, hbuf]
      rw [if_pos h1]
    have havail : Uart.bytes_available 256 last_idx ndtr = 0 := by
      simp only [Uart.bytes_available]
      rw [if_pos (by omega)]
      omega
    rw [hread, havail]
    simp [Nat.mod_eq_of_lt hlast]
  · by_cases h2 : 256 - ndtr < last_idx
    · -- wraparound: copy last_idx..256 then 0..write cursor
      have havail : Uart.bytes_available 256 last_idx ndtr =
          (256 - last_idx) + (256 - ndtr) := by
        simp only [Uart.bytes_available]
        rw [if_neg (by omega)]
      by_cases hb1 : 256 - last_idx > rxLen
      · -- destination ends inside the first range
        have hread : Uart.read buffer last_idx ndtr rxLen =
            ((buffer.drop last_idx).take rxLen ++ buffer.take 0, last_idx + rxLen) := by
          simp only [Uart.read, hbuf]
          rw [if_neg h1, if_pos h2, if_pos hb1]
        have hread1 : (Uart.read buffer last_idx ndtr rxLen).1 =
            (buffer.drop last_idx).take rxLen ++ buffer.take 0 := by rw [hread]
        have hread2 : (Uart.read buffer last_idx ndtr rxLen).2 = last_idx + rxLen := by
          rw [hread]
        have hmin : min ((256 - last_idx) + (256 - ndtr)) rxLen = rxLen := by omega
        refine ⟨?_, ?_, ?_⟩
        · rw [hread1, havail, hmin,
            List.take_append_of_le_length (by rw [hdl]; omega)]
          simp
        · rw [hread1, havail, hmin]
          simp only [List.length_append, List.length_take, hdl, List.take_zero,
            List.length_nil]
          omega
        · rw [hread2, havail, hmin, Nat.mod_eq_of_lt (by omega)]
      · by_cases hb2 : (256 - last_idx) + (256 - ndtr) > rxLen
        · -- destination ends inside the second range
          have hread : Uart.read buffer last_idx ndtr rxLen =
              ((buffer.drop last_idx).take (256 - last_idx) ++
                  buffer.take (rxLen - (256 - last_idx)),
                rxLen - (256 - last_idx)) := by
            simp only [Uart.read, hbuf]
            rw [if_neg h1, if_pos h2, if_neg hb1, if_pos hb2]
          have hread1 : (Uart.read buffer last_idx ndtr rxLen).1 =
              (buffer.drop last_idx).take (256 - last_idx) ++
                buffer.take (rxLen - (256 - last_idx)) := by rw [hread]
          have hread2 : (Uart.read buffer last_idx ndtr rxLen).2 =
              rxLen - (256 - last_idx) := by rw [hread]
          have hmin : min ((256 - last_idx) + (256 - ndtr)) rxLen = rxLen := by omega
          have e1 : (buffer.drop last_idx).take (256 - last_idx) =
              buffer.drop last_idx := List.take_of_length_le (le_of_eq hdl)
          have e2 : (buffer.drop last_idx ++ buffer.take (256 - ndtr)).take rxLen =
              buffer.drop last_idx ++
                (buffer.take (256 - ndtr)).take (rxLen - (256 - last_idx)) := by
            rw [List.take_append_eq_append_take, hdl,
              (List.take_of_length_le (by rw [hdl]; omega) :
                (buffer.drop last_idx).take rxLen = buffer.drop last_idx)]
          have e3 : (buffer.take (256 - ndtr)).take (rxLen - (256 - last_idx)) =
              buffer.take (rxLen - (256 - last_idx)) := by
            rw [List.take_take, min_eq_left (by omega)]
          refine ⟨?_, ?_, ?_⟩
          · rw [hread1, havail, hmin, e1, e2, e3]
          · rw [hread1, havail, hmin]
            simp only [List.length_append, List.length_take, hdl, hbuf]
            omega
          · rw [hread2, havail, hmin,
              show last_idx + rxLen = 256 + (rxLen - (256 - last_idx)) by omega,
              Nat.add_mod_left, Nat.mod_eq_of_lt (by omega)]
        · -- destination holds the whole available span
          have hread : Uart.read buffer last_idx ndtr rxLen =
              ((buffer.drop last_idx).take (256 - last_idx) ++
                  buffer.take (256 - ndtr),
                256 - ndtr) := by
            simp only [Uart.read, hbuf]
            rw [if_neg h1, if_pos h2, if_neg hb1, if_neg hb2]
          have hread1 : (Uart.read buffer last_idx ndtr rxLen).1 =
              (buffer.drop last_idx).take (256 - last_idx) ++
                buffer.take (256 - ndtr) := by rw [hread]
          have hread2 : (Uart.read buffer last_idx ndtr rxLen).2 = 256 - ndtr := by
            rw [hread]
          have hmin : min ((256 - last_idx) + (256 - ndtr)) rxLen =
              (256 - last_idx) + (256 - ndtr) := by omega
          have e1 : (buffer.drop last_idx).take (256 - last_idx) =
              buffer.drop last_idx := List.take_of_length_le (le_of_eq hdl)
          have e2 : (buffer.drop last_idx ++ buffer.take (256 - ndtr)).take
              ((256 - last_idx) + (256 - ndtr)) =
              buffer.drop last_idx ++ buffer.take (256 - ndtr) :=
            List.take_of_length_le (by rw [List.length_append, hdl, htl])
          refine ⟨?_, ?_, ?_⟩
          · rw [hread1, havail, hmin, e1, e2]
          · rw [hread1, havail, hmin]
            simp only [List.length_append, List.length_take, hdl, hbuf]
            omega
          · rw [hread2, havail, hmin,
              show last_idx + ((256 - last_idx) + (256 - ndtr)) = 256 + (256 - ndtr)
                by omega,
              Nat.add_mod_left, Nat.mod_eq_of_lt (by omega)]
    · -- new data without wraparound
      have h3 : last_idx < 256 - ndtr := by omega
      have havail : Uart.bytes_available 256 last_idx ndtr =
          (256 - ndtr) - last_idx := by
        simp only [Uart.bytes_available]
        rw [if_pos (by omega)]
      have hread : Uart.read buffer last_idx ndtr rxLen =
          ((buffer.drop last_idx).take (min ((256 - ndtr) - last_idx) rxLen),
            last_idx + min ((256 - ndtr) - last_idx) rxLen) := by
        simp only [Uart.read, hbuf]
        rw [if_neg h1, if_neg h2,
          show (if (256 - ndtr) - last_idx > rxLen then rxLen
            else (256 - ndtr) - last_idx) = min ((256 - ndtr) - last_idx) rxLen
            by split_ifs <;> omega]
      have hread1 : (Uart.read buffer last_idx ndtr rxLen).1 =
          (buffer.drop last_idx).take (min ((256 - ndtr) - last_idx) rxLen) := by
        rw [hread]
      have hread2 : (Uart.read buffer last_idx ndtr rxLen).2 =
          last_idx + min ((256 - ndtr) - last_idx) rxLen := by rw [hread]
      refine ⟨?_, ?_, ?_⟩
      · rw [hread1, havail, List.take_append_of_le_length (by rw [hdl]; omega)]
      · rw [hread1, havail]
        simp only [List.length_take, hdl]
        omega
      · rw [hread2, havail, Nat.mod_eq_of_lt (by omega)]

/-- C1 witness: the general statement applied at the wraparound scenario
(capacity 256, `last_idx = 250`, write cursor 4, destination length 10). -/
theorem uart_read_correct_witness :
    Uart.read (List.range 256) 250 252 10 =
      ([250, 251, 252, 253, 254, 255, 0, 1, 2, 3], 4) :=
  (uart_read_correct (List.range 256) 250 252 10 (by simp) (by norm_num)
    (by norm_num) (by norm_num)).2

/-- C3: `USB::interrupt` returns at most one request per call by
construction (its result carries an `Option Request`); whenever the device
state observed in a call differs from the stored state and the new state is
not `Configured`, the call returns exactly one `Suspend` request, stores the
new state, and performs neither debug-command nor serial processing in that
same call. -/
theorem interrupt_suspend_transition (device_state : DeviceState) (env : PollEnv)
    (vcp_idle : Bool) (hpoll : env.pollResult = true)
    (hchg : device_state ≠ env.newState)
    (hncfg : env.newState ≠ DeviceState.Configured) :
    USB.interrupt device_state env vcp_idle =
      { device_state := env.newState, request := some Request.Suspend,
        dap2Processed := false, serialPolled := false } := by
  simp only [USB.interrupt, hpoll, if_true]
  rw [if_pos ⟨hchg, hncfg⟩]

/-- C3 witness: a poll observing a `Configured → Suspend` bus transition
returns exactly the `Suspend` request with no command or serial
processing. -/
theorem interrupt_suspend_transition_witness :
    USB.interrupt DeviceState.Configured
        { pollResult := true, newState := DeviceState.Suspend,
          readEp := Except.error UsbError.wouldBlock,
          serialRead := Except.error UsbError.wouldBlock } false =
      { device_state := DeviceState.Suspend, request := some Request.Suspend,
        dap2Processed := false, serialPolled := false } :=
  interrupt_suspend_transition DeviceState.Configured
    { pollResult := true, newState := DeviceState.Suspend,
      readEp := Except.error UsbError.wouldBlock,
      serialRead := Except.error UsbError.wouldBlock } false rfl
    (by decide) (by decide)

/-- C4: step-local invariants of the trace-endpoint busy flag that together
give the temporal property over every reachable execution: (1) while the
flag is set, no event — in particular no trace-pump iteration — submits a
trace write; (2) a step that submits a trace write leaves the flag set;
(3) the flag is cleared from the set state only by an endpoint-in
completion carrying the trace endpoint address or by a device reset. -/
theorem trace_busy_exclusion (busy : Bool) (e : TraceEv) :
    (busy = true → (traceStep busy e).2 = false) ∧
    ((traceStep busy e).2 = true → (traceStep busy e).1 = true) ∧
    (busy = true → (traceStep busy e).1 = false →
      e = TraceEv.reset ∨ e = TraceEv.complete true) := by
  cases e with
  | pollTrace s len =>
      cases busy <;> cases s <;> by_cases hl : 0 < len <;> simp [traceStep, hl]
  | writeReply => cases busy <;> simp [traceStep]
  | processCmd => cases busy <;> simp [traceStep]
  | complete a =>
      cases busy <;> cases a <;> simp [traceStep, CmsisDapV2.endpoint_in_complete]
  | reset => cases busy <;> simp [traceStep, CmsisDapV2.reset]

/-- C4 witness: with the busy flag set, a streaming trace-pump iteration
with pending bytes submits no write. -/
theorem trace_busy_exclusion_witness :
    (traceStep true (TraceEv.pollTrace true 5)).2 = false :=
  (trace_busy_exclusion true (TraceEv.pollTrace true 5)).1 rfl

/-- C7: for every packet longer than the destination endpoint's maximum
packet size, `write_packet` and `trace_write` return `BufferOverflow`
without invoking the endpoint write (no bytes written, none truncated, busy
flag untouched), and the wrappers `dap2_reply` and `dap2_stream_swo`
surface that error as a panic (`none`) rather than retrying or
truncating. -/
theorem oversized_packet_is_fatal (maxPacketSize : ℕ) (data : List ℕ)
    (epWrite : Except UsbError ℕ) (busy : Bool)
    (h : maxPacketSize < data.length) :
    (CmsisDapV2.write_packet maxPacketSize data epWrite).1 =
        Except.error UsbError.bufferOverflow ∧
    (CmsisDapV2.write_packet maxPacketSize data epWrite).2 = none ∧
    (CmsisDapV2.trace_write maxPacketSize busy data epWrite).1.1 =
        Except.error UsbError.bufferOverflow ∧
    (CmsisDapV2.trace_write maxPacketSize busy data epWrite).2 = none ∧
    (CmsisDapV2.trace_write maxPacketSize busy data epWrite).1.2 = busy ∧
    USB.dap2_reply maxPacketSize data epWrite = none ∧
    USB.dap2_stream_swo maxPacketSize busy data epWrite = none := by
  have h1 : data.length > maxPacketSize := h
  simp [CmsisDapV2.write_packet, CmsisDapV2.trace_write, USB.dap2_reply,
    USB.dap2_stream_swo, h1]

/-- C7 witness: a 3-byte packet against a 2-byte endpoint maximum is
rejected everywhere and panics in the wrappers. -/
theorem oversized_packet_is_fatal_witness :
    (CmsisDapV2.write_packet 2 [1, 2, 3] (Except.ok 0)).1 =
        Except.error UsbError.bufferOverflow ∧
    (CmsisDapV2.write_packet 2 [1, 2, 3] (Except.ok 0)).2 = none ∧
    (CmsisDapV2.trace_write 2 false [1, 2, 3] (Except.ok 0)).1.1 =
        Except.error UsbError.bufferOverflow ∧
    (CmsisDapV2.trace_write 2 false [1, 2, 3] (Except.ok 0)).2 = none ∧
    (CmsisDapV2.trace_write 2 false [1, 2, 3] (Except.ok 0)).1.2 = false ∧
    USB.dap2_reply 2 [1, 2, 3] (Except.ok 0) = none ∧
    USB.dap2_stream_swo 2 false [1, 2, 3] (Except.ok 0) = none :=
  oversized_packet_is_fatal 2 [1, 2, 3] (Except.ok 0) false (by decide)

/-- C8: for every class-type control request addressed to the DFU runtime
interface, a GETSTATUS control-in is accepted with exactly the six zero
bytes, a DETACH control-out is handled without rejecting the transfer, and
every other control-in or control-out request to that interface is rejected
(stalled); the handler state is unchanged in every case. -/
theorem dfu_control_spec (dfu : DfuRuntime) (req : ControlRequest)
    (ht : req.request_type = RequestType.classType)
    (hr : req.recipient = Recipient.interface)
    (hi : req.index = dfu.interface) :
    (req.request = DfuRuntime.DFU_GETSTATUS →
      DfuRuntime.control_in dfu req = (dfu, XferAction.acceptData [0, 0, 0, 0, 0, 0])) ∧
    (req.request ≠ DfuRuntime.DFU_GETSTATUS →
      DfuRuntime.control_in dfu req = (dfu, XferAction.reject)) ∧
    (req.request = DfuRuntime.DFU_DETACH →
      DfuRuntime.control_out dfu req = (dfu, XferAction.noCall)) ∧
    (req.request ≠ DfuRuntime.DFU_DETACH →
      DfuRuntime.control_out dfu req = (dfu, XferAction.reject)) ∧
    (DfuRuntime.control_in dfu req).1 = dfu ∧
    (DfuRuntime.control_out dfu req).1 = dfu := by
  have hcond : req.request_type = RequestType.classType ∧
      req.recipient = Recipient.interface ∧ req.index = dfu.interface := ⟨ht, hr, hi⟩
  refine ⟨?_, ?_, ?_, ?_, ?_, ?_⟩
  · intro hreq
    simp [DfuRuntime.control_in, hcond, hreq, List.replicate]
  · intro hreq
    simp [DfuRuntime.control_in, hcond, hreq]
  · intro hreq
    simp [DfuRuntime.control_out, hcond, hreq]
  · intro hreq
    simp [DfuRuntime.control_out, hcond, hreq]
  · by_cases hreq : req.request = DfuRuntime.DFU_GETSTATUS <;>
      simp [DfuRuntime.control_in, hcond, hreq]
  · by_cases hreq : req.request = DfuRuntime.DFU_DETACH <;>
      simp [DfuRuntime.control_out, hcond, hreq]

/-- C8 witness: instantiated at a GETSTATUS request to interface 1. -/
theorem dfu_control_spec_witness :
    ((3 : ℕ) = DfuRuntime.DFU_GETSTATUS →
      DfuRuntime.control_in { interface := 1, name := 0 }
          { request_type := RequestType.classType, recipient := Recipient.interface,
            index := 1, request := 3 } =
        ({ interface := 1, name := 0 }, XferAction.acceptData [0, 0, 0, 0, 0, 0])) ∧
    ((3 : ℕ) ≠ DfuRuntime.DFU_GETSTATUS →
      DfuRuntime.control_in { interface := 1, name := 0 }
          { request_type := RequestType.classType, recipient := Recipient.interface,
            index := 1, request := 3 } =
        ({ interface := 1, name := 0 }, XferAction.reject)) ∧
    ((3 : ℕ) = DfuRuntime.DFU_DETACH →
      DfuRuntime.control_out { interface := 1, name := 0 }
          { request_type := RequestType.classType, recipient := Recipient.interface,
            index := 1, request := 3 } =
        ({ interface := 1, name := 0 }, XferAction.noCall)) ∧
    ((3 : ℕ) ≠ DfuRuntime.DFU_DETACH →
      DfuRuntime.control_out { interface := 1, name := 0 }
          { request_type := RequestType.classType, recipient := Recipient.interface,
            index := 1, request := 3 } =
        ({ interface := 1, name := 0 }, XferAction.reject)) ∧
    (DfuRuntime.control_in { interface := 1, name := 0 }
        { request_type := RequestType.classType, recipient := Recipient.interface,
          index := 1, request := 3 }).1 = { interface := 1, name := 0 } ∧
    (DfuRuntime.control_out { interface := 1, name := 0 }
        { request_type := RequestType.classType, recipient := Recipient.interface,
          index := 1, request := 3 }).1 = { interface := 1, name := 0 } :=
  dfu_control_spec { interface := 1, name := 0 }
    { request_type := RequestType.classType, recipient := Recipient.interface,
      index := 1, request := 3 } rfl rfl rfl

end HpmProbe
